import Mathlib

/-!
Verification of the `env` Go package: a configuration-value accessor library
reading process environment variables and `.env`-file overlays, with typed
accessors falling back to caller-supplied defaults.

The embedding below translates `env.go` (the `init` file loader and the
`GetEnv*` accessor family) into Lean. Go strings are Lean `String`s; the
process environment and the overlay map are association lists; accessors that
can panic return `Except String α`, where `.error msg` stands for the Go
`panic(msg)`. Go standard-library helpers (`strings.TrimSpace`,
`strings.Split`, `strings.SplitN`, `strconv.Atoi`, `strconv.ParseBool`,
`strconv.ParseFloat`, `time.ParseDuration`) are modelled below on the
fragment the package exercises.
-/

namespace EnvPkg

/-- Go `unicode.IsSpace` restricted to the ASCII fast path used by
`strings.TrimSpace` (`'\t'`, `'\n'`, `'\v'`, `'\f'`, `'\r'`, `' '`). -/
def isSpaceChar (c : Char) : Bool :=
  c = ' ' ∨ c = '\t' ∨ c = '\n' ∨ c = Char.ofNat 11 ∨ c = Char.ofNat 12 ∨ c = '\r'

/-- Go `strings.TrimSpace` on a character list: drop leading and trailing
whitespace. -/
def goTrimList (s : List Char) : List Char :=
  ((s.dropWhile isSpaceChar).reverse.dropWhile isSpaceChar).reverse

/-- Go `strings.TrimSpace` on strings. -/
def goTrim (s : String) : String :=
  String.mk (goTrimList s.data)

/-- Leftmost occurrence of a non-empty separator `sep` in `s`: returns the
part before the first occurrence and the part after it, or `none` when `sep`
does not occur. -/
def splitOnce (s sep : List Char) : Option (List Char × List Char) :=
  match s with
  | [] => none
  | c :: rest =>
    if sep.isPrefixOf s then some ([], s.drop sep.length)
    else (splitOnce rest sep).map (fun p => (c :: p.1, p.2))

/-- Worker for `goSplit` with fuel (the separator is non-empty, so each step
consumes at least one character; fuel `s.length + 1` always suffices). -/
def goSplitFuel : Nat → List Char → List Char → List (List Char)
  | 0, s, _ => [s]
  | n + 1, s, sep =>
    match splitOnce s sep with
    | none => [s]
    | some (pre, post) => pre :: goSplitFuel n post sep

/-- Go `strings.Split(s, sep)`: with empty `sep`, explode into single
characters; otherwise split around each leftmost non-overlapping occurrence
of `sep`. -/
def goSplitList (s sep : List Char) : List (List Char) :=
  if sep = [] then s.map (fun c => [c])
  else goSplitFuel (s.length + 1) s sep

/-- Go `strings.Split` on strings. -/
def goSplit (s sep : String) : List String :=
  (goSplitList s.data sep.data).map String.mk

/-- Go `strings.SplitN(s, sep, 2)`: at most two parts. With empty `sep`,
the first character and the remainder; otherwise split at the first
occurrence of `sep` only (one part when `sep` is absent). -/
def goSplitN2 (s sep : List Char) : List (List Char) :=
  if sep = [] then
    match s with
    | [] => []
    | [c] => [[c]]
    | c :: rest => [[c], rest]
  else
    match splitOnce s sep with
    | none => [s]
    | some (pre, post) => [pre, post]

/-- Decimal digit value of a character, if it is one of `'0'`–`'9'`. -/
def digitVal (c : Char) : Option Nat :=
  if '0' ≤ c ∧ c ≤ '9' then some (c.toNat - '0'.toNat) else none

/-- Parse a non-empty run of decimal digits into a natural number;
`none` when the list is empty or holds a non-digit. -/
def digitsToNat : List Char → Option Nat
  | [] => none
  | [c] => digitVal c
  | c :: rest => do
    let d ← digitVal c
    let n ← digitsToNat rest
    pure (d * 10 ^ rest.length + n)

/-- Go `strconv.Atoi` (= `ParseInt(s, 10, 64)` on a 64-bit platform):
optional `+`/`-` sign, then one or more decimal digits; the value must fit
in a signed 64-bit integer. -/
def goAtoi (s : List Char) : Option Int :=
  match s with
  | '+' :: rest =>
    (digitsToNat rest).bind fun n =>
      if n ≤ 2 ^ 63 - 1 then some (n : Int) else none
  | '-' :: rest =>
    (digitsToNat rest).bind fun n =>
      if n ≤ 2 ^ 63 then some (-(n : Int)) else none
  | _ =>
    (digitsToNat s).bind fun n =>
      if n ≤ 2 ^ 63 - 1 then some (n : Int) else none

/-- Go `strconv.ParseBool`: accepts exactly the twelve strings
`"1"`, `"t"`, `"T"`, `"TRUE"`, `"true"`, `"True"` (true) and
`"0"`, `"f"`, `"F"`, `"FALSE"`, `"false"`, `"False"` (false);
every other string is an error. -/
def goParseBool (s : String) : Option Bool :=
  if s = "1" ∨ s = "t" ∨ s = "T" ∨ s = "TRUE" ∨ s = "true" ∨ s = "True" then
    some true
  else if s = "0" ∨ s = "f" ∨ s = "F" ∨ s = "FALSE" ∨ s = "false" ∨ s = "False" then
    some false
  else none

/-- Go `strconv.ParseFloat(s, 64)` modelled on the decimal fragment the
package exercises: optional `+`/`-` sign, a mantissa of decimal digits with
at most one `.` (at least one digit overall), and an optional `e`/`E`
exponent with optional sign and one or more digits. The parsed value is
represented exactly as a rational (the hexadecimal, `inf`/`nan` and
underscore forms of Go's parser, and the final rounding to binary64, are
outside the fragment the claims exercise). -/
def goParseFloat (s : List Char) : Option ℚ :=
  let core : List Char → Option ℚ := fun t =>
    let mant := t.takeWhile (fun c => (digitVal c).isSome ∨ c = '.')
    let rest := t.drop mant.length
    let intPart := mant.takeWhile (fun c => (digitVal c).isSome)
    let afterInt := mant.drop intPart.length
    let parseMant : Option ℚ :=
      match afterInt with
      | [] =>
        if intPart = [] then none
        else (digitsToNat intPart).map (fun n => (n : ℚ))
      | '.' :: frac =>
        if frac.any (fun c => ¬ (digitVal c).isSome) then none
        else if intPart = [] ∧ frac = [] then none
        else
          let i := (digitsToNat intPart).getD 0
          let f := (digitsToNat frac).getD 0
          some ((i : ℚ) + (f : ℚ) / ((10 : ℚ) ^ frac.length))
      | _ => none
    match parseMant with
    | none => none
    | some m =>
      match rest with
      | [] => some m
      | 'e' :: ex => goParseFloatExp m ex
      | 'E' :: ex => goParseFloatExp m ex
      | _ => none
  match s with
  | '+' :: t => core t
  | '-' :: t => (core t).map Neg.neg
  | _ => core s
where
  /-- Apply a decimal exponent part (optional sign, then digits) to a
  mantissa. -/
  goParseFloatExp (m : ℚ) (ex : List Char) : Option ℚ :=
    match ex with
    | '+' :: ds => (digitsToNat ds).map (fun n => m * (10 : ℚ) ^ n)
    | '-' :: ds => (digitsToNat ds).map (fun n => m / (10 : ℚ) ^ n)
    | ds => (digitsToNat ds).map (fun n => m * (10 : ℚ) ^ n)

/-- Nanoseconds per unit for `time.ParseDuration`: `ns`, `us`/`µs`/`μs`,
`ms`, `s`, `m`, `h`. -/
def durationUnitNs (u : List Char) : Option Nat :=
  if u = ['n', 's'] then some 1
  else if u = ['u', 's'] ∨ u = ['µ', 's'] ∨ u = ['μ', 's'] then some 1000
  else if u = ['m', 's'] then some 1000000
  else if u = ['s'] then some 1000000000
  else if u = ['m'] then some 60000000000
  else if u = ['h'] then some 3600000000000
  else none

/-- One `number[.fraction]unit` term loop of Go `time.ParseDuration`, with
fuel. Accumulates nanoseconds; each term needs at least one digit before or
after the `.`, and a unit from the table (the unit is the maximal run of
characters that are neither digits nor `.`). The fractional contribution is
truncated per term, as in Go. -/
def goParseDurationLoop : Nat → List Char → Nat → Option Nat
  | 0, _, _ => none
  | _ + 1, [], acc => some acc
  | fuel + 1, s, acc =>
    let intPart := s.takeWhile (fun c => (digitVal c).isSome)
    let s₁ := s.drop intPart.length
    let hasDot := s₁.head? = some '.'
    let s₂ := if hasDot then s₁.drop 1 else s₁
    let fracPart := if hasDot then s₂.takeWhile (fun c => (digitVal c).isSome) else []
    let s₃ := s₂.drop fracPart.length
    if intPart = [] ∧ fracPart = [] then none
    else
      let unit := s₃.takeWhile (fun c => ¬ (digitVal c).isSome ∧ c ≠ '.')
      let s₄ := s₃.drop unit.length
      match durationUnitNs unit with
      | none => none
      | some ns =>
        let iv := (digitsToNat intPart).getD 0
        let fv := (digitsToNat fracPart).getD 0
        let term := iv * ns + fv * ns / 10 ^ fracPart.length
        goParseDurationLoop fuel s₄ (acc + term)

/-- Go `time.ParseDuration`: optional sign, then the bare string `"0"` or a
non-empty sequence of `number[.fraction]unit` terms; the result is the
signed sum in nanoseconds, erroring when the magnitude exceeds the signed
64-bit range. -/
def goParseDuration (s : List Char) : Option Int :=
  let signAndRest : Bool × List Char :=
    match s with
    | '-' :: t => (true, t)
    | '+' :: t => (false, t)
    | t => (false, t)
  let neg := signAndRest.1
  let t := signAndRest.2
  if t = ['0'] then some 0
  else if t = [] then none
  else
    match goParseDurationLoop (t.length + 1) t 0 with
    | none => none
    | some n =>
      if n ≤ 2 ^ 63 - 1 then some (if neg then -(n : Int) else (n : Int))
      else none

/-- Environments and the overlay (`envMap`) as association lists from
variable name to raw string value. -/
abbrev EnvMap := List (String × String)

/-- Go `os.LookupEnv` over the association-list model: the value of the
first binding of `k`, or `none`. -/
def lookupEnv (m : EnvMap) (k : String) : Option String :=
  (m.find? (fun p => p.1 == k)).map Prod.snd

/-- Go map assignment `m[k] = v`: any previous binding of `k` is replaced. -/
def mapInsert (m : EnvMap) (k v : String) : EnvMap :=
  m.filter (fun p => p.1 != k) ++ [(k, v)]

/-- One line of the `init` scanner, threading the process environment as
read-only state. The state is `(overlay accumulator, process environment)`:
trim the line; skip it when empty or starting with `#`; split on the first
`=` (skip when there is none); trim key and value; insert into the overlay
only when the key is not in the process environment. -/
def initLineS (st : EnvMap × EnvMap) (raw : String) : EnvMap × EnvMap :=
  let line := goTrimList raw.data
  if line = [] ∨ List.isPrefixOf ['#'] line then st
  else
    match goSplitN2 line ['='] with
    | [k, v] =>
      let key := String.mk (goTrimList k)
      let val := String.mk (goTrimList v)
      if (lookupEnv st.2 key).isSome then st
      else (mapInsert st.1 key val, st.2)
    | _ => st

/-- The `init` file-loader scan: fold `initLineS` over every line of every
discovered `.env` file in order, starting from an empty overlay. Files are
given as their line lists (`bufio.Scanner` yields lines without the
newline). Returns the overlay and the process environment after the scan. -/
def initScanS (env : EnvMap) (files : List (List String)) : EnvMap × EnvMap :=
  files.foldl (fun st f => f.foldl initLineS st) ([], env)

/-- The overlay mapping `envMap` built by `init`. -/
def initScan (env : EnvMap) (files : List (List String)) : EnvMap :=
  (initScanS env files).1

/-- `GetEnvString`, state-passing: process environment first, then the
overlay, then the default. The returned state is the process environment
after the call. -/
def GetEnvStringS (env overlay : EnvMap) (key default : String) :
    String × EnvMap :=
  match lookupEnv env key with
  | some v => (v, env)
  | none =>
    match lookupEnv overlay key with
    | some v => (v, env)
    | none => (default, env)

/-- `GetEnvString`: the value component. -/
def GetEnvString (env overlay : EnvMap) (key default : String) : String :=
  (GetEnvStringS env overlay key default).1

/-- `GetEnvArrayString`, state-passing: split the resolved raw value on the
caller's delimiter; default when the raw value is empty. Never panics. -/
def GetEnvArrayStringS (env overlay : EnvMap) (key split : String)
    (default : List String) : List String × EnvMap :=
  let r := GetEnvStringS env overlay key ""
  if r.1 ≠ "" then (goSplit r.1 split, r.2) else (default, r.2)

/-- `GetEnvArrayString`: the value component. -/
def GetEnvArrayString (env overlay : EnvMap) (key split : String)
    (default : List String) : List String :=
  (GetEnvArrayStringS env overlay key split default).1

/-- `GetEnvInt`, state-passing: `strconv.Atoi` the non-empty resolved raw
value, panicking (modelled as `.error`) when it is not a valid integer. -/
def GetEnvIntS (env overlay : EnvMap) (key : String) (default : Int) :
    Except String Int × EnvMap :=
  let r := GetEnvStringS env overlay key ""
  if r.1 ≠ "" then
    match goAtoi r.1.data with
    | none =>
      (.error ("Environment variable " ++ key ++ " is not a valid integer: "
        ++ r.1), r.2)
    | some n => (.ok n, r.2)
  else (.ok default, r.2)

/-- `GetEnvInt`: the value component. -/
def GetEnvInt (env overlay : EnvMap) (key : String) (default : Int) :
    Except String Int :=
  (GetEnvIntS env overlay key default).1

/-- `GetEnvDuration`, state-passing: `time.ParseDuration` the non-empty
resolved raw value (durations are nanosecond counts), panicking when it is
not a valid duration. -/
def GetEnvDurationS (env overlay : EnvMap) (key : String) (default : Int) :
    Except String Int × EnvMap :=
  let r := GetEnvStringS env overlay key ""
  if r.1 ≠ "" then
    match goParseDuration r.1.data with
    | none =>
      (.error ("Environment variable " ++ key ++ " is not a valid duration: "
        ++ r.1), r.2)
    | some d => (.ok d, r.2)
  else (.ok default, r.2)

/-- `GetEnvDuration`: the value component. -/
def GetEnvDuration (env overlay : EnvMap) (key : String) (default : Int) :
    Except String Int :=
  (GetEnvDurationS env overlay key default).1

/-- `GetEnvBool`, state-passing: `strconv.ParseBool` the non-empty resolved
raw value, panicking when it is not a valid boolean. -/
def GetEnvBoolS (env overlay : EnvMap) (key : String) (default : Bool) :
    Except String Bool × EnvMap :=
  let r := GetEnvStringS env overlay key ""
  if r.1 ≠ "" then
    match goParseBool r.1 with
    | none =>
      (.error ("Environment variable " ++ key ++ " is not a valid boolean: "
        ++ r.1), r.2)
    | some b => (.ok b, r.2)
  else (.ok default, r.2)

/-- `GetEnvBool`: the value component. -/
def GetEnvBool (env overlay : EnvMap) (key : String) (default : Bool) :
    Except String Bool :=
  (GetEnvBoolS env overlay key default).1

/-- `GetEnvFloat64`, state-passing: `strconv.ParseFloat` the non-empty
resolved raw value, panicking when it is not a valid float64. -/
def GetEnvFloat64S (env overlay : EnvMap) (key : String) (default : ℚ) :
    Except String ℚ × EnvMap :=
  let r := GetEnvStringS env overlay key ""
  if r.1 ≠ "" then
    match goParseFloat r.1.data with
    | none =>
      (.error ("Environment variable " ++ key ++ " is not a valid float64: "
        ++ r.1), r.2)
    | some q => (.ok q, r.2)
  else (.ok default, r.2)

/-- `GetEnvFloat64`: the value component. -/
def GetEnvFloat64 (env overlay : EnvMap) (key : String) (default : ℚ) :
    Except String ℚ :=
  (GetEnvFloat64S env overlay key default).1

/-- The element loop of `GetEnvArrayInt`: parse each split element with
`strconv.Atoi`, panicking at the first invalid element and naming it. -/
def parseIntElems (key : String) : List String → Except String (List Int)
  | [] => .ok []
  | s :: rest =>
    match goAtoi s.data with
    | none =>
      .error ("Environment variable " ++ key
        ++ " array contains an invalid integer: " ++ s)
    | some n => (parseIntElems key rest).map (fun l => n :: l)

/-- `GetEnvArrayInt`, state-passing. -/
def GetEnvArrayIntS (env overlay : EnvMap) (key split : String)
    (default : List Int) : Except String (List Int) × EnvMap :=
  let r := GetEnvStringS env overlay key ""
  if r.1 ≠ "" then (parseIntElems key (goSplit r.1 split), r.2)
  else (.ok default, r.2)

/-- `GetEnvArrayInt`: the value component. -/
def GetEnvArrayInt (env overlay : EnvMap) (key split : String)
    (default : List Int) : Except String (List Int) :=
  (GetEnvArrayIntS env overlay key split default).1

/-- The element loop of `GetEnvArrayDuration`: parse each split element
with `time.ParseDuration`, panicking at the first invalid element and
naming it. -/
def parseDurationElems (key : String) :
    List String → Except String (List Int)
  | [] => .ok []
  | s :: rest =>
    match goParseDuration s.data with
    | none =>
      .error ("Environment variable " ++ key
        ++ " array contains an invalid duration: " ++ s)
    | some d => (parseDurationElems key rest).map (fun l => d :: l)

/-- `GetEnvArrayDuration`, state-passing. -/
def GetEnvArrayDurationS (env overlay : EnvMap) (key split : String)
    (default : List Int) : Except String (List Int) × EnvMap :=
  let r := GetEnvStringS env overlay key ""
  if r.1 ≠ "" then (parseDurationElems key (goSplit r.1 split), r.2)
  else (.ok default, r.2)

/-- `GetEnvArrayDuration`: the value component. -/
def GetEnvArrayDuration (env overlay : EnvMap) (key split : String)
    (default : List Int) : Except String (List Int) :=
  (GetEnvArrayDurationS env overlay key split default).1

/-- The entry loop of `GetEnvMapStringString`: split each entry on the
first occurrence of the key/value delimiter; an entry that does not give
exactly two parts panics naming the entry; otherwise the trimmed pair is
inserted into the result map. -/
def parseMapEntries (key kvDelim : String) (acc : EnvMap) :
    List String → Except String EnvMap
  | [] => .ok acc
  | e :: rest =>
    match goSplitN2 e.data kvDelim.data with
    | [k, v] =>
      parseMapEntries key kvDelim
        (mapInsert acc (String.mk (goTrimList k)) (String.mk (goTrimList v)))
        rest
    | _ =>
      .error ("Environment variable " ++ key
        ++ " contains invalid map entry: " ++ e)

/-- `GetEnvMapStringString`, state-passing: split the non-empty resolved
raw value on the entry delimiter and build the map entry by entry. -/
def GetEnvMapStringStringS (env overlay : EnvMap)
    (key entryDelim kvDelim : String) (default : EnvMap) :
    Except String EnvMap × EnvMap :=
  let r := GetEnvStringS env overlay key ""
  if r.1 ≠ "" then (parseMapEntries key kvDelim [] (goSplit r.1 entryDelim), r.2)
  else (.ok default, r.2)

/-- `GetEnvMapStringString`: the value component. -/
def GetEnvMapStringString (env overlay : EnvMap)
    (key entryDelim kvDelim : String) (default : EnvMap) :
    Except String EnvMap :=
  (GetEnvMapStringStringS env overlay key entryDelim kvDelim default).1

/-- Modelled from the spec's resolution invariant, for comparison with the
code's `GetEnvString`: the effective value is the process-environment value
if present, else the overlay value if present, else the default. -/
def resolveRawSpec (env overlay : EnvMap) (key default : String) : String :=
  match lookupEnv env key with
  | some v => v
  | none =>
    match lookupEnv overlay key with
    | some v => v
    | none => default

/-- Modelled from the spec's line grammar, for comparison with the code's
`init` scanner: split a line at the first `=` character into the part
before and the part after, or `none` when the line has no `=`. -/
def specSplitFirstEq : List Char → Option (List Char × List Char)
  | [] => none
  | c :: rest =>
    if c = '=' then some ([], rest)
    else (specSplitFirstEq rest).map (fun p => (c :: p.1, p.2))

/-- Modelled from the spec's words, for comparison with the code's `init`
scanner: whitespace-trim the line; skip it when empty or when its first
character is `#`; split at the first `=` (skip when there is none); trim
key and value; insert only when the key is not defined in the process
environment, unconditionally with respect to the overlay itself. -/
def specProcessLine (env : EnvMap) (m : EnvMap) (raw : String) : EnvMap :=
  let line := goTrimList raw.data
  if line = [] then m
  else if line.head? = some '#' then m
  else
    match specSplitFirstEq line with
    | none => m
    | some (k, v) =>
      let key := String.mk (goTrimList k)
      let val := String.mk (goTrimList v)
      if (lookupEnv env key).isSome then m else mapInsert m key val

/-- Modelled from the spec's words: the overlay obtained by processing every
discovered file's lines in order with `specProcessLine`. -/
def specOverlay (env : EnvMap) (files : List (List String)) : EnvMap :=
  files.foldl (fun m f => f.foldl (specProcessLine env) m) []

/-- The map `GetEnvMapStringString` builds when every entry splits into
exactly two parts: each entry's trimmed key/value pair inserted in order. -/
def mapFromEntries (kvDelim : String) (acc : EnvMap) :
    List String → EnvMap
  | [] => acc
  | e :: rest =>
    match goSplitN2 e.data kvDelim.data with
    | [k, v] =>
      mapFromEntries kvDelim
        (mapInsert acc (String.mk (goTrimList k)) (String.mk (goTrimList v)))
        rest
    | _ => acc

end EnvPkg

namespace EnvPkg

/-! ### Helper lemmas -/

theorem lookupEnv_mapInsert (m : EnvMap) (k v : String) :
    lookupEnv (mapInsert m k v) k = some v := by
  unfold lookupEnv mapInsert
  rw [List.find?_append]
  have hnone : (m.filter (fun p => p.1 != k)).find? (fun p => p.1 == k) = none := by
    rw [List.find?_eq_none]
    intro x hx
    have := List.of_mem_filter hx
    simp only [bne_iff_ne, ne_eq] at this
    simp [this]
  rw [hnone]
  simp [List.find?]

theorem GetEnvStringS_snd (env overlay : EnvMap) (key d : String) :
    (GetEnvStringS env overlay key d).2 = env := by
  unfold GetEnvStringS
  rcases lookupEnv env key with _ | v
  · rcases lookupEnv overlay key with _ | w <;> rfl
  · rfl

theorem GetEnvArrayStringS_snd (env overlay : EnvMap) (key sp : String)
    (d : List String) : (GetEnvArrayStringS env overlay key sp d).2 = env := by
  simp only [GetEnvArrayStringS]
  split <;> simp [GetEnvStringS_snd]

theorem GetEnvIntS_snd (env overlay : EnvMap) (key : String) (d : Int) :
    (GetEnvIntS env overlay key d).2 = env := by
  simp only [GetEnvIntS]
  split
  · split <;> simp [GetEnvStringS_snd]
  · simp [GetEnvStringS_snd]

theorem GetEnvDurationS_snd (env overlay : EnvMap) (key : String) (d : Int) :
    (GetEnvDurationS env overlay key d).2 = env := by
  simp only [GetEnvDurationS]
  split
  · split <;> simp [GetEnvStringS_snd]
  · simp [GetEnvStringS_snd]

theorem GetEnvBoolS_snd (env overlay : EnvMap) (key : String) (d : Bool) :
    (GetEnvBoolS env overlay key d).2 = env := by
  simp only [GetEnvBoolS]
  split
  · split <;> simp [GetEnvStringS_snd]
  · simp [GetEnvStringS_snd]

theorem GetEnvFloat64S_snd (env overlay : EnvMap) (key : String) (d : ℚ) :
    (GetEnvFloat64S env overlay key d).2 = env := by
  simp only [GetEnvFloat64S]
  split
  · split <;> simp [GetEnvStringS_snd]
  · simp [GetEnvStringS_snd]

theorem GetEnvArrayIntS_snd (env overlay : EnvMap) (key sp : String)
    (d : List Int) : (GetEnvArrayIntS env overlay key sp d).2 = env := by
  simp only [GetEnvArrayIntS]
  split <;> simp [GetEnvStringS_snd]

theorem GetEnvArrayDurationS_snd (env overlay : EnvMap) (key sp : String)
    (d : List Int) : (GetEnvArrayDurationS env overlay key sp d).2 = env := by
  simp only [GetEnvArrayDurationS]
  split <;> simp [GetEnvStringS_snd]

theorem GetEnvMapStringStringS_snd (env overlay : EnvMap)
    (key entryDelim kvDelim : String) (d : EnvMap) :
    (GetEnvMapStringStringS env overlay key entryDelim kvDelim d).2 = env := by
  simp only [GetEnvMapStringStringS]
  split <;> simp [GetEnvStringS_snd]

theorem parseIntElems_ok (key : String) :
    ∀ (l : List String) (res : List Int),
      l.mapM (fun s => goAtoi s.data) = some res →
      parseIntElems key l = .ok res := by
  intro l
  induction l with
  | nil =>
    intro res h
    simp only [List.mapM_nil, pure, Option.some.injEq] at h
    simp [parseIntElems, ← h]
  | cons s rest ih =>
    intro res h
    simp only [List.mapM_cons, bind, Option.bind_eq_some, pure,
      Option.some.injEq] at h
    obtain ⟨n, hn, l', hl', hres⟩ := h
    simp [parseIntElems, hn, ih l' hl', ← hres, Except.map]

theorem parseIntElems_err (key : String) :
    ∀ (l : List String) (e : String),
      l.find? (fun s => (goAtoi s.data).isNone) = some e →
      parseIntElems key l =
        .error ("Environment variable " ++ key
          ++ " array contains an invalid integer: " ++ e) := by
  intro l
  induction l with
  | nil => intro e h; simp [List.find?] at h
  | cons s rest ih =>
    intro e h
    rw [List.find?_cons] at h
    by_cases hs : (goAtoi s.data).isNone
    · simp only [hs, cond_true, Option.some.injEq] at h
      rw [Option.isNone_iff_eq_none] at hs
      subst h
      simp [parseIntElems, hs]
    · simp only [Bool.not_eq_true] at hs
      simp only [hs, cond_false] at h
      have hex : ∃ n, some n = goAtoi s.data := by
        rw [← Option.ne_none_iff_exists, ne_eq, ← Option.isNone_iff_eq_none, hs]
        simp
      obtain ⟨n, hn⟩ := hex
      simp [parseIntElems, ← hn, ih e h, Except.map]

theorem parseDurationElems_ok (key : String) :
    ∀ (l : List String) (res : List Int),
      l.mapM (fun s => goParseDuration s.data) = some res →
      parseDurationElems key l = .ok res := by
  intro l
  induction l with
  | nil =>
    intro res h
    simp only [List.mapM_nil, pure, Option.some.injEq] at h
    simp [parseDurationElems, ← h]
  | cons s rest ih =>
    intro res h
    simp only [List.mapM_cons, bind, Option.bind_eq_some, pure,
      Option.some.injEq] at h
    obtain ⟨n, hn, l', hl', hres⟩ := h
    simp [parseDurationElems, hn, ih l' hl', ← hres, Except.map]

theorem parseDurationElems_err (key : String) :
    ∀ (l : List String) (e : String),
      l.find? (fun s => (goParseDuration s.data).isNone) = some e →
      parseDurationElems key l =
        .error ("Environment variable " ++ key
          ++ " array contains an invalid duration: " ++ e) := by
  intro l
  induction l with
  | nil => intro e h; simp [List.find?] at h
  | cons s rest ih =>
    intro e h
    rw [List.find?_cons] at h
    by_cases hs : (goParseDuration s.data).isNone
    · simp only [hs, cond_true, Option.some.injEq] at h
      rw [Option.isNone_iff_eq_none] at hs
      subst h
      simp [parseDurationElems, hs]
    · simp only [Bool.not_eq_true] at hs
      simp only [hs, cond_false] at h
      have hex : ∃ n, some n = goParseDuration s.data := by
        rw [← Option.ne_none_iff_exists, ne_eq, ← Option.isNone_iff_eq_none, hs]
        simp
      obtain ⟨n, hn⟩ := hex
      simp [parseDurationElems, ← hn, ih e h, Except.map]

theorem mapM_none_exists_find {α : Type} (p : String → Option α) :
    ∀ l : List String, l.mapM p = none →
      ∃ e, l.find? (fun s => (p s).isNone) = some e := by
  intro l
  induction l with
  | nil =>
    intro h
    rw [List.mapM_nil] at h
    exact Option.noConfusion h
  | cons s rest ih =>
    intro h
    by_cases hs : (p s).isNone
    · exact ⟨s, by rw [List.find?_cons]; simp [hs]⟩
    · simp only [Bool.not_eq_true] at hs
      have hex : ∃ n, some n = p s := by
        rw [← Option.ne_none_iff_exists, ne_eq, ← Option.isNone_iff_eq_none, hs]
        simp
      obtain ⟨n, hn⟩ := hex
      have hrest : rest.mapM p = none := by
        rcases hmm : rest.mapM p with _ | l'
        · rfl
        · exfalso
          rw [List.mapM_cons, ← hn, hmm] at h
          simp at h
      obtain ⟨e, he⟩ := ih hrest
      exact ⟨e, by rw [List.find?_cons]; simp [hs, he]⟩

theorem splitOnce_eqSign (line : List Char) :
    splitOnce line ['='] = specSplitFirstEq line := by
  induction line with
  | nil => rfl
  | cons c rest ih =>
    simp only [splitOnce, specSplitFirstEq, List.isPrefixOf, List.length_cons,
      List.length_nil, List.drop_succ_cons, List.drop_zero, Bool.and_true]
    by_cases hc : c = '='
    · simp [hc]
    · have : ('=' == c) = false := by simp [Ne.symm hc]
      simp [this, hc, ih]

theorem goSplitN2_eqSign (line : List Char) :
    goSplitN2 line ['='] =
      match specSplitFirstEq line with
      | none => [line]
      | some p => [p.1, p.2] := by
  rw [goSplitN2.eq_def]
  simp only [List.cons_ne_self, if_false, splitOnce_eqSign, reduceCtorEq,
    ite_false]
  rcases specSplitFirstEq line with _ | ⟨k, v⟩ <;> rfl

theorem initLineS_eq (env m : EnvMap) (raw : String) :
    initLineS (m, env) raw = (specProcessLine env m raw, env) := by
  rw [initLineS, specProcessLine]
  rcases hline : goTrimList raw.data with _ | ⟨c, cs⟩
  · simp
  · by_cases hc : c = '#'
    · simp [hc, List.isPrefixOf]
    · have hpre : List.isPrefixOf ['#'] (c :: cs) = false := by
        simp [List.isPrefixOf, Ne.symm hc]
      simp only [hpre, List.cons_ne_nil, false_or, if_false, List.head?_cons,
        Option.some.injEq, hc, reduceCtorEq, ite_false, Bool.false_eq_true]
      rw [goSplitN2_eqSign]
      rcases hsp : specSplitFirstEq (c :: cs) with _ | ⟨k, v⟩
      · rfl
      · simp only
        by_cases he : (lookupEnv env (String.mk (goTrimList k))).isSome <;>
          simp [he]

theorem foldLines_eq (env : EnvMap) (f : List String) :
    ∀ m, f.foldl initLineS (m, env) = (f.foldl (specProcessLine env) m, env) := by
  induction f with
  | nil => intro m; rfl
  | cons raw rest ih =>
    intro m
    rw [List.foldl_cons, List.foldl_cons, initLineS_eq, ih]

theorem initScanS_eq (env : EnvMap) (files : List (List String)) :
    ∀ m, files.foldl (fun st f => f.foldl initLineS st) (m, env) =
      (files.foldl (fun mm f => f.foldl (specProcessLine env) mm) m, env) := by
  induction files with
  | nil => intro m; rfl
  | cons f rest ih =>
    intro m
    rw [List.foldl_cons, List.foldl_cons, foldLines_eq, ih]

theorem parseMapEntries_ok (key kvDelim : String) :
    ∀ (l : List String) (acc : EnvMap),
      (∀ e ∈ l, (goSplitN2 e.data kvDelim.data).length = 2) →
      parseMapEntries key kvDelim acc l = .ok (mapFromEntries kvDelim acc l) := by
  intro l
  induction l with
  | nil => intro acc _; rfl
  | cons e rest ih =>
    intro acc h
    have he : (goSplitN2 e.data kvDelim.data).length = 2 :=
      h e (List.mem_cons_self e rest)
    rcases hsp : goSplitN2 e.data kvDelim.data with _ | ⟨k, _ | ⟨v, _ | _⟩⟩ <;>
      rw [hsp] at he <;> simp at he
    simp only [parseMapEntries, mapFromEntries, hsp]
    exact ih _ (fun x hx => h x (List.mem_cons_of_mem e hx))

theorem parseMapEntries_err (key kvDelim : String) :
    ∀ (l : List String) (acc : EnvMap) (e : String),
      l.find? (fun x => (goSplitN2 x.data kvDelim.data).length != 2) = some e →
      parseMapEntries key kvDelim acc l =
        .error ("Environment variable " ++ key
          ++ " contains invalid map entry: " ++ e) := by
  intro l
  induction l with
  | nil => intro acc e h; simp [List.find?] at h
  | cons x rest ih =>
    intro acc e h
    rw [List.find?_cons] at h
    by_cases hx : (goSplitN2 x.data kvDelim.data).length = 2
    · have hb : ((goSplitN2 x.data kvDelim.data).length != 2) = false := by
        simp [hx]
      simp only [hb, cond_false] at h
      rcases hsp : goSplitN2 x.data kvDelim.data with _ | ⟨k, _ | ⟨v, _ | _⟩⟩ <;>
        rw [hsp] at hx <;> simp at hx
      simp only [parseMapEntries, hsp]
      exact ih _ e h
    · have hb : ((goSplitN2 x.data kvDelim.data).length != 2) = true := by
        simp [hx]
      simp only [hb, cond_true, Option.some.injEq] at h
      rcases hsp : goSplitN2 x.data kvDelim.data with _ | ⟨k, kv⟩
      · simp [parseMapEntries, hsp, ← h]
      · rcases kv with _ | ⟨v, tail⟩
        · simp [parseMapEntries, hsp, ← h]
        · rcases tail with _ | ⟨w, tl⟩
          · rw [hsp] at hx; simp at hx
          · simp [parseMapEntries, hsp, ← h]

end EnvPkg

namespace EnvPkg

theorem accessors_default_of_empty (env overlay : EnvMap)
    (key sp sp2 : String) (di dd : Int) (db : Bool) (df : ℚ)
    (ds : List String) (dis dds : List Int) (dm : EnvMap)
    (h : GetEnvString env overlay key "" = "") :
    GetEnvArrayString env overlay key sp ds = ds
    ∧ GetEnvInt env overlay key di = .ok di
    ∧ GetEnvDuration env overlay key dd = .ok dd
    ∧ GetEnvBool env overlay key db = .ok db
    ∧ GetEnvFloat64 env overlay key df = .ok df
    ∧ GetEnvArrayInt env overlay key sp dis = .ok dis
    ∧ GetEnvArrayDuration env overlay key sp dds = .ok dds
    ∧ GetEnvMapStringString env overlay key sp sp2 dm = .ok dm := by
  rw [GetEnvString] at h
  refine ⟨?_, ?_, ?_, ?_, ?_, ?_, ?_, ?_⟩ <;>
    simp [GetEnvArrayString, GetEnvArrayStringS, GetEnvInt, GetEnvIntS,
      GetEnvDuration, GetEnvDurationS, GetEnvBool, GetEnvBoolS,
      GetEnvFloat64, GetEnvFloat64S, GetEnvArrayInt, GetEnvArrayIntS,
      GetEnvArrayDuration, GetEnvArrayDurationS,
      GetEnvMapStringString, GetEnvMapStringStringS, h]

end EnvPkg

namespace EnvPkg

/-- C1: for every key and accessor, the effective value resolves as the
process-environment value if set, else the overlay value if present, else
the caller's default: `GetEnvString` coincides with the spec's resolution
rule; when the key is set in both sources the process-environment value is
used; when it is set in neither, every accessor returns the caller's
default unchanged. -/
theorem claim_C1 (env overlay : EnvMap) (key d sp sp2 : String)
    (di : Int) (db : Bool) (df : ℚ) (ds : List String) (dis dds : List Int)
    (dm : EnvMap) :
    GetEnvString env overlay key d = resolveRawSpec env overlay key d
    ∧ (∀ v w, lookupEnv env key = some v → lookupEnv overlay key = some w →
        GetEnvString env overlay key d = v)
    ∧ (lookupEnv env key = none → lookupEnv overlay key = none →
        GetEnvString env overlay key d = d
        ∧ GetEnvArrayString env overlay key sp ds = ds
        ∧ GetEnvInt env overlay key di = .ok di
        ∧ GetEnvDuration env overlay key di = .ok di
        ∧ GetEnvBool env overlay key db = .ok db
        ∧ GetEnvFloat64 env overlay key df = .ok df
        ∧ GetEnvArrayInt env overlay key sp dis = .ok dis
        ∧ GetEnvArrayDuration env overlay key sp dds = .ok dds
        ∧ GetEnvMapStringString env overlay key sp sp2 dm = .ok dm) := by
  refine ⟨?_, ?_, ?_⟩
  · unfold GetEnvString GetEnvStringS resolveRawSpec
    rcases lookupEnv env key with _ | v
    · rcases lookupEnv overlay key with _ | w <;> rfl
    · rfl
  · intro v w hv _
    simp [GetEnvString, GetEnvStringS, hv]
  · intro h1 h2
    have hraw : GetEnvString env overlay key "" = "" := by
      simp [GetEnvString, GetEnvStringS, h1, h2]
    exact ⟨by simp [GetEnvString, GetEnvStringS, h1, h2],
      accessors_default_of_empty env overlay key sp sp2 di di db df ds dis
        dds dm hraw⟩

/-- C1 witness: with `K` set to `"v"` in the process environment and `"w"`
in the overlay the string accessor returns `"v"`; with `K` set in neither,
the integer accessor returns its default. -/
theorem claim_C1_witness :
    GetEnvString [("K", "v")] [("K", "w")] "K" "d" = "v"
    ∧ GetEnvInt [] [] "K" 7 = .ok 7 := by
  constructor
  · exact (claim_C1 [("K", "v")] [("K", "w")] "K" "d" "," ":" 7 true 1 []
      [] [] []).2.1 "v" "w" rfl rfl
  · exact ((claim_C1 [] [] "K" "d" "," ":" 7 true 1 [] [] [] []).2.2
      rfl rfl).2.2.1

/-- C2: for every accessor except the plain string one, an empty resolved
raw value yields the caller's default unchanged, with no parsing. -/
theorem claim_C2 (env overlay : EnvMap) (key sp sp2 : String)
    (di dd : Int) (db : Bool) (df : ℚ) (ds : List String)
    (dis dds : List Int) (dm : EnvMap)
    (h : GetEnvString env overlay key "" = "") :
    GetEnvArrayString env overlay key sp ds = ds
    ∧ GetEnvInt env overlay key di = .ok di
    ∧ GetEnvDuration env overlay key dd = .ok dd
    ∧ GetEnvBool env overlay key db = .ok db
    ∧ GetEnvFloat64 env overlay key df = .ok df
    ∧ GetEnvArrayInt env overlay key sp dis = .ok dis
    ∧ GetEnvArrayDuration env overlay key sp dds = .ok dds
    ∧ GetEnvMapStringString env overlay key sp sp2 dm = .ok dm :=
  accessors_default_of_empty env overlay key sp sp2 di dd db df ds dis dds
    dm h

/-- C2 witness: with `K` set to the empty string in the process
environment, the boolean and map accessors return their defaults. -/
theorem claim_C2_witness :
    GetEnvBool [("K", "")] [] "K" true = .ok true
    ∧ GetEnvMapStringString [("K", "")] [] "K" "," ":" [("a", "b")] =
        .ok [("a", "b")] := by
  have h := claim_C2 [("K", "")] [] "K" "," ":" 7 8 true 1 ["x"] [1] [2]
    [("a", "b")] rfl
  exact ⟨h.2.2.2.1, h.2.2.2.2.2.2.2⟩

/-- C10: a key set to the empty string in the process environment shadows
any overlay entry: the string accessor returns the empty string, and every
other accessor returns the caller's default, whatever the overlay holds. -/
theorem claim_C10 (env overlay : EnvMap) (key d sp sp2 : String)
    (di dd : Int) (db : Bool) (df : ℚ) (ds : List String)
    (dis dds : List Int) (dm : EnvMap)
    (h : lookupEnv env key = some "") :
    GetEnvString env overlay key d = ""
    ∧ GetEnvArrayString env overlay key sp ds = ds
    ∧ GetEnvInt env overlay key di = .ok di
    ∧ GetEnvDuration env overlay key dd = .ok dd
    ∧ GetEnvBool env overlay key db = .ok db
    ∧ GetEnvFloat64 env overlay key df = .ok df
    ∧ GetEnvArrayInt env overlay key sp dis = .ok dis
    ∧ GetEnvArrayDuration env overlay key sp dds = .ok dds
    ∧ GetEnvMapStringString env overlay key sp sp2 dm = .ok dm := by
  have hraw : GetEnvString env overlay key "" = "" := by
    simp [GetEnvString, GetEnvStringS, h]
  exact ⟨by simp [GetEnvString, GetEnvStringS, h],
    accessors_default_of_empty env overlay key sp sp2 di dd db df ds dis
      dds dm hraw⟩

/-- C10 witness: `K` empty in the process environment while the overlay
holds the parseable `"5"`: the string accessor returns `""` and the
integer accessor returns its default `7`. -/
theorem claim_C10_witness :
    GetEnvString [("K", "")] [("K", "5")] "K" "d" = ""
    ∧ GetEnvInt [("K", "")] [("K", "5")] "K" 7 = .ok 7 := by
  have h := claim_C10 [("K", "")] [("K", "5")] "K" "d" "," ":" 7 8 true 1
    ["x"] [1] [2] [("a", "b")] rfl
  exact ⟨h.1, h.2.2.1⟩

end EnvPkg

namespace EnvPkg

/-- C3: the overlay built at startup equals the map obtained by the spec's
line-by-line processing (trim; skip empty and `#` lines; split on the first
`=`, trimming key and value, skipping lines without `=`; insert only when
the key is not in the process environment), and insertion is unconditional
with respect to the overlay itself, so a later entry for a key overwrites
an earlier one. -/
theorem claim_C3 (env : EnvMap) (files : List (List String)) (m : EnvMap)
    (k v : String) :
    initScan env files = specOverlay env files
    ∧ lookupEnv (mapInsert m k v) k = some v := by
  constructor
  · rw [initScan, initScanS, initScanS_eq]
    rfl
  · exact lookupEnv_mapInsert m k v

/-- C8: neither the startup scan nor any accessor call writes to the
process environment: the environment component of every operation's result
equals the input environment. -/
theorem claim_C8 (env overlay : EnvMap) (files : List (List String))
    (key d sp sp2 : String) (di dd : Int) (db : Bool) (df : ℚ)
    (ds : List String) (dis dds : List Int) (dm : EnvMap) :
    (initScanS env files).2 = env
    ∧ (GetEnvStringS env overlay key d).2 = env
    ∧ (GetEnvArrayStringS env overlay key sp ds).2 = env
    ∧ (GetEnvIntS env overlay key di).2 = env
    ∧ (GetEnvDurationS env overlay key dd).2 = env
    ∧ (GetEnvBoolS env overlay key db).2 = env
    ∧ (GetEnvFloat64S env overlay key df).2 = env
    ∧ (GetEnvArrayIntS env overlay key sp dis).2 = env
    ∧ (GetEnvArrayDurationS env overlay key sp dds).2 = env
    ∧ (GetEnvMapStringStringS env overlay key sp sp2 dm).2 = env := by
  refine ⟨?_, GetEnvStringS_snd env overlay key d,
    GetEnvArrayStringS_snd env overlay key sp ds,
    GetEnvIntS_snd env overlay key di,
    GetEnvDurationS_snd env overlay key dd,
    GetEnvBoolS_snd env overlay key db,
    GetEnvFloat64S_snd env overlay key df,
    GetEnvArrayIntS_snd env overlay key sp dis,
    GetEnvArrayDurationS_snd env overlay key sp dds,
    GetEnvMapStringStringS_snd env overlay key sp sp2 dm⟩
  rw [initScanS, initScanS_eq]

/-- C9: every accessor is deterministic and side-effect-free with respect
to reads: a second call on the environment state left by a first call, with
the same key, delimiters and default, returns the same result. -/
theorem claim_C9 (env overlay : EnvMap) (key d sp sp2 : String)
    (di dd : Int) (db : Bool) (df : ℚ) (ds : List String)
    (dis dds : List Int) (dm : EnvMap) :
    (GetEnvStringS (GetEnvStringS env overlay key d).2 overlay key d).1 =
      (GetEnvStringS env overlay key d).1
    ∧ (GetEnvArrayStringS (GetEnvArrayStringS env overlay key sp ds).2
        overlay key sp ds).1 = (GetEnvArrayStringS env overlay key sp ds).1
    ∧ (GetEnvIntS (GetEnvIntS env overlay key di).2 overlay key di).1 =
        (GetEnvIntS env overlay key di).1
    ∧ (GetEnvDurationS (GetEnvDurationS env overlay key dd).2 overlay
        key dd).1 = (GetEnvDurationS env overlay key dd).1
    ∧ (GetEnvBoolS (GetEnvBoolS env overlay key db).2 overlay key db).1 =
        (GetEnvBoolS env overlay key db).1
    ∧ (GetEnvFloat64S (GetEnvFloat64S env overlay key df).2 overlay
        key df).1 = (GetEnvFloat64S env overlay key df).1
    ∧ (GetEnvArrayIntS (GetEnvArrayIntS env overlay key sp dis).2 overlay
        key sp dis).1 = (GetEnvArrayIntS env overlay key sp dis).1
    ∧ (GetEnvArrayDurationS
        (GetEnvArrayDurationS env overlay key sp dds).2 overlay
        key sp dds).1 = (GetEnvArrayDurationS env overlay key sp dds).1
    ∧ (GetEnvMapStringStringS
        (GetEnvMapStringStringS env overlay key sp sp2 dm).2 overlay
        key sp sp2 dm).1 =
        (GetEnvMapStringStringS env overlay key sp sp2 dm).1 := by
  refine ⟨?_, ?_, ?_, ?_, ?_, ?_, ?_, ?_, ?_⟩ <;>
    simp only [GetEnvStringS_snd, GetEnvArrayStringS_snd, GetEnvIntS_snd,
      GetEnvDurationS_snd, GetEnvBoolS_snd, GetEnvFloat64S_snd,
      GetEnvArrayIntS_snd, GetEnvArrayDurationS_snd,
      GetEnvMapStringStringS_snd]

end EnvPkg

namespace EnvPkg

theorem GetEnvArrayString_eq (env overlay : EnvMap) (key sp : String)
    (ds : List String) (hv : (GetEnvStringS env overlay key "").1 ≠ "") :
    GetEnvArrayString env overlay key sp ds =
      goSplit (GetEnvStringS env overlay key "").1 sp := by
  simp only [GetEnvArrayString, GetEnvArrayStringS]
  rw [if_pos hv]

theorem GetEnvInt_eq (env overlay : EnvMap) (key : String) (di : Int)
    (hv : (GetEnvStringS env overlay key "").1 ≠ "") :
    GetEnvInt env overlay key di =
      match goAtoi (GetEnvStringS env overlay key "").1.data with
      | none =>
        .error ("Environment variable " ++ key
          ++ " is not a valid integer: " ++ (GetEnvStringS env overlay key "").1)
      | some n => .ok n := by
  simp only [GetEnvInt, GetEnvIntS]
  rw [if_pos hv]
  rcases goAtoi (GetEnvStringS env overlay key "").1.data with _ | n <;> rfl

theorem GetEnvDuration_eq (env overlay : EnvMap) (key : String) (dd : Int)
    (hv : (GetEnvStringS env overlay key "").1 ≠ "") :
    GetEnvDuration env overlay key dd =
      match goParseDuration (GetEnvStringS env overlay key "").1.data with
      | none =>
        .error ("Environment variable " ++ key
          ++ " is not a valid duration: " ++ (GetEnvStringS env overlay key "").1)
      | some n => .ok n := by
  simp only [GetEnvDuration, GetEnvDurationS]
  rw [if_pos hv]
  rcases goParseDuration (GetEnvStringS env overlay key "").1.data with _ | n <;>
    rfl

theorem GetEnvBool_eq (env overlay : EnvMap) (key : String) (db : Bool)
    (hv : (GetEnvStringS env overlay key "").1 ≠ "") :
    GetEnvBool env overlay key db =
      match goParseBool (GetEnvStringS env overlay key "").1 with
      | none =>
        .error ("Environment variable " ++ key
          ++ " is not a valid boolean: " ++ (GetEnvStringS env overlay key "").1)
      | some b => .ok b := by
  simp only [GetEnvBool, GetEnvBoolS]
  rw [if_pos hv]
  rcases goParseBool (GetEnvStringS env overlay key "").1 with _ | b <;> rfl

theorem GetEnvFloat64_eq (env overlay : EnvMap) (key : String) (df : ℚ)
    (hv : (GetEnvStringS env overlay key "").1 ≠ "") :
    GetEnvFloat64 env overlay key df =
      match goParseFloat (GetEnvStringS env overlay key "").1.data with
      | none =>
        .error ("Environment variable " ++ key
          ++ " is not a valid float64: " ++ (GetEnvStringS env overlay key "").1)
      | some q => .ok q := by
  simp only [GetEnvFloat64, GetEnvFloat64S]
  rw [if_pos hv]
  rcases goParseFloat (GetEnvStringS env overlay key "").1.data with _ | q <;> rfl

theorem GetEnvArrayInt_eq (env overlay : EnvMap) (key sp : String)
    (dis : List Int) (hv : (GetEnvStringS env overlay key "").1 ≠ "") :
    GetEnvArrayInt env overlay key sp dis =
      parseIntElems key (goSplit (GetEnvStringS env overlay key "").1 sp) := by
  simp only [GetEnvArrayInt, GetEnvArrayIntS]
  rw [if_pos hv]

theorem GetEnvArrayDuration_eq (env overlay : EnvMap) (key sp : String)
    (dds : List Int) (hv : (GetEnvStringS env overlay key "").1 ≠ "") :
    GetEnvArrayDuration env overlay key sp dds =
      parseDurationElems key
        (goSplit (GetEnvStringS env overlay key "").1 sp) := by
  simp only [GetEnvArrayDuration, GetEnvArrayDurationS]
  rw [if_pos hv]

theorem GetEnvMapStringString_eq (env overlay : EnvMap)
    (key ed kd : String) (dm : EnvMap)
    (hv : (GetEnvStringS env overlay key "").1 ≠ "") :
    GetEnvMapStringString env overlay key ed kd dm =
      parseMapEntries key kd []
        (goSplit (GetEnvStringS env overlay key "").1 ed) := by
  simp only [GetEnvMapStringString, GetEnvMapStringStringS]
  rw [if_pos hv]

end EnvPkg

namespace EnvPkg

/-- C4: for each scalar typed accessor (integer, duration, boolean,
float), a non-empty resolved raw value that fails the type's parse makes
the call panic with a message containing the key name, and a non-empty
value that parses is returned without a panic. -/
theorem claim_C4 (env overlay : EnvMap) (key : String) (di dd : Int)
    (db : Bool) (df : ℚ)
    (hv : GetEnvString env overlay key "" ≠ "") :
    ((goAtoi (GetEnvString env overlay key "").data = none →
        ∃ a b, GetEnvInt env overlay key di = .error (a ++ key ++ b))
      ∧ (∀ n, goAtoi (GetEnvString env overlay key "").data = some n →
          GetEnvInt env overlay key di = .ok n))
    ∧ ((goParseDuration (GetEnvString env overlay key "").data = none →
        ∃ a b, GetEnvDuration env overlay key dd = .error (a ++ key ++ b))
      ∧ (∀ n, goParseDuration (GetEnvString env overlay key "").data =
            some n →
          GetEnvDuration env overlay key dd = .ok n))
    ∧ ((goParseBool (GetEnvString env overlay key "") = none →
        ∃ a b, GetEnvBool env overlay key db = .error (a ++ key ++ b))
      ∧ (∀ t, goParseBool (GetEnvString env overlay key "") = some t →
          GetEnvBool env overlay key db = .ok t))
    ∧ ((goParseFloat (GetEnvString env overlay key "").data = none →
        ∃ a b, GetEnvFloat64 env overlay key df = .error (a ++ key ++ b))
      ∧ (∀ q, goParseFloat (GetEnvString env overlay key "").data = some q →
          GetEnvFloat64 env overlay key df = .ok q)) := by
  rw [GetEnvString] at hv
  refine ⟨⟨?_, ?_⟩, ⟨?_, ?_⟩, ⟨?_, ?_⟩, ⟨?_, ?_⟩⟩
  · intro hp
    rw [GetEnvString] at hp
    refine ⟨"Environment variable ",
      " is not a valid integer: " ++ (GetEnvStringS env overlay key "").1, ?_⟩
    rw [GetEnvInt_eq env overlay key di hv, hp, String.append_assoc]
  · intro n hp
    rw [GetEnvString] at hp
    rw [GetEnvInt_eq env overlay key di hv, hp]
  · intro hp
    rw [GetEnvString] at hp
    refine ⟨"Environment variable ",
      " is not a valid duration: " ++ (GetEnvStringS env overlay key "").1, ?_⟩
    rw [GetEnvDuration_eq env overlay key dd hv, hp, String.append_assoc]
  · intro n hp
    rw [GetEnvString] at hp
    rw [GetEnvDuration_eq env overlay key dd hv, hp]
  · intro hp
    rw [GetEnvString] at hp
    refine ⟨"Environment variable ",
      " is not a valid boolean: " ++ (GetEnvStringS env overlay key "").1, ?_⟩
    rw [GetEnvBool_eq env overlay key db hv, hp, String.append_assoc]
  · intro t hp
    rw [GetEnvString] at hp
    rw [GetEnvBool_eq env overlay key db hv, hp]
  · intro hp
    rw [GetEnvString] at hp
    refine ⟨"Environment variable ",
      " is not a valid float64: " ++ (GetEnvStringS env overlay key "").1, ?_⟩
    rw [GetEnvFloat64_eq env overlay key df hv, hp, String.append_assoc]
  · intro q hp
    rw [GetEnvString] at hp
    rw [GetEnvFloat64_eq env overlay key df hv, hp]

/-- C4 witness: `"12"` parses, so the integer accessor returns 12; `"zz"`
fails boolean parsing, so the boolean accessor panics with a message
naming the key. -/
theorem claim_C4_witness :
    GetEnvInt [("K", "12")] [] "K" 0 = .ok 12
    ∧ (∃ a b, GetEnvBool [("K", "zz")] [] "K" true = .error (a ++ "K" ++ b)) := by
  constructor
  · exact (claim_C4 [("K", "12")] [] "K" 0 0 true 1 (by decide)).1.2 12 rfl
  · exact (claim_C4 [("K", "zz")] [] "K" 0 0 true 1 (by decide)).2.2.1.1 rfl

end EnvPkg

namespace EnvPkg

/-- C6 counterexample: with raw value `"a , b"` and delimiter `","`, the
array-of-string accessor returns the untrimmed parts `["a ", " b"]`, not
the whitespace-trimmed sequence `["a", "b"]` the claim describes. -/
theorem claim_C6_counterexample :
    GetEnvArrayString [("K", "a , b")] [] "K" "," [] = ["a ", " b"]
    ∧ (goSplit "a , b" ",").map goTrim = ["a", "b"]
    ∧ GetEnvArrayString [("K", "a , b")] [] "K" "," [] ≠
        (goSplit "a , b" ",").map goTrim := by
  refine ⟨by decide, by decide, by decide⟩

/-- C6 (amended): for every non-empty resolved raw value and every
delimiter, the array-of-string accessor returns the ordered sequence of
substrings obtained by splitting the raw value on the delimiter, without
trimming; it never fails. -/
theorem claim_C6 (env overlay : EnvMap) (key sp : String)
    (ds : List String) (hv : GetEnvString env overlay key "" ≠ "") :
    GetEnvArrayString env overlay key sp ds =
      goSplit (GetEnvString env overlay key "") sp := by
  rw [GetEnvString] at hv
  rw [GetEnvString]
  exact GetEnvArrayString_eq env overlay key sp ds hv

/-- C6 witness: splitting `"a,b,c"` on `","`. -/
theorem claim_C6_witness :
    GetEnvArrayString [("K", "a,b,c")] [] "K" "," [] = ["a", "b", "c"] := by
  have h := claim_C6 [("K", "a,b,c")] [] "K" "," [] (by decide)
  rw [h]
  decide

/-- C7 counterexample: `"TRue"` is a casing of `"true"` (mapping its
characters to lowercase gives `"true"`), yet the boolean accessor panics
on it instead of returning `true`, so boolean parsing is not
case-insensitive. -/
theorem claim_C7_counterexample :
    "TRue".data.map Char.toLower = "true".data
    ∧ GetEnvBool [("K", "TRue")] [] "K" false =
        .error "Environment variable K is not a valid boolean: TRue" := by
  constructor
  · decide
  · rfl

/-- C7 (amended): boolean parsing accepts exactly the Go `ParseBool`
spellings `1`, `t`, `T`, `TRUE`, `true`, `True` (yielding true) and `0`,
`f`, `F`, `FALSE`, `false`, `False` (yielding false); any other non-empty
resolved value panics with a message naming the key; in particular the
canonical lowercase `"true"` yields true. -/
theorem claim_C7 (env overlay : EnvMap) (key : String) (d : Bool)
    (hv : GetEnvString env overlay key "" ≠ "") :
    (GetEnvString env overlay key "" ∈
        ["1", "t", "T", "TRUE", "true", "True"] →
      GetEnvBool env overlay key d = .ok true)
    ∧ (GetEnvString env overlay key "" ∈
        ["0", "f", "F", "FALSE", "false", "False"] →
      GetEnvBool env overlay key d = .ok false)
    ∧ (goParseBool (GetEnvString env overlay key "") = none →
      ∃ a b, GetEnvBool env overlay key d = .error (a ++ key ++ b)) := by
  rw [GetEnvString] at hv
  refine ⟨?_, ?_, ?_⟩
  · intro hm
    rw [GetEnvString] at hm
    have hp : goParseBool (GetEnvStringS env overlay key "").1 = some true := by
      simp only [List.mem_cons, List.mem_singleton, List.not_mem_nil,
        or_false] at hm
      rcases hm with h | h | h | h | h | h <;> rw [h] <;> rfl
    rw [GetEnvBool_eq env overlay key d hv, hp]
  · intro hm
    rw [GetEnvString] at hm
    have hp : goParseBool (GetEnvStringS env overlay key "").1 = some false := by
      simp only [List.mem_cons, List.mem_singleton, List.not_mem_nil,
        or_false] at hm
      rcases hm with h | h | h | h | h | h <;> rw [h] <;> rfl
    rw [GetEnvBool_eq env overlay key d hv, hp]
  · intro hp
    rw [GetEnvString] at hp
    refine ⟨"Environment variable ",
      " is not a valid boolean: " ++ (GetEnvStringS env overlay key "").1, ?_⟩
    rw [GetEnvBool_eq env overlay key d hv, hp, String.append_assoc]

/-- C7 witness: the canonical `"true"` yields true. -/
theorem claim_C7_witness :
    GetEnvBool [("K", "true")] [] "K" false = .ok true :=
  (claim_C7 [("K", "true")] [] "K" false (by decide)).1 (by decide)

end EnvPkg

namespace EnvPkg

/-- C5: for the array-of-integer, array-of-duration and map accessors with
a non-empty resolved raw value, either every split element (respectively
every entry) parses and the complete collection is returned, or the call
panics at the first malformed element (respectively the first entry that
does not split into exactly two parts), with a message naming the
offending substring; the failure cases cover everything the success cases
do not, so no partially-parsed collection is ever returned. -/
theorem claim_C5 (env overlay : EnvMap) (key sp ed kd : String)
    (dis dds : List Int) (dm : EnvMap)
    (hv : GetEnvString env overlay key "" ≠ "") :
    ((∀ l, (goSplit (GetEnvString env overlay key "") sp).mapM
          (fun s => goAtoi s.data) = some l →
        GetEnvArrayInt env overlay key sp dis = .ok l)
      ∧ (∀ e, (goSplit (GetEnvString env overlay key "") sp).find?
            (fun s => (goAtoi s.data).isNone) = some e →
          ∃ a b, GetEnvArrayInt env overlay key sp dis =
            .error (a ++ e ++ b))
      ∧ ((goSplit (GetEnvString env overlay key "") sp).mapM
            (fun s => goAtoi s.data) = none →
          ∃ e, (goSplit (GetEnvString env overlay key "") sp).find?
            (fun s => (goAtoi s.data).isNone) = some e))
    ∧ ((∀ l, (goSplit (GetEnvString env overlay key "") sp).mapM
          (fun s => goParseDuration s.data) = some l →
        GetEnvArrayDuration env overlay key sp dds = .ok l)
      ∧ (∀ e, (goSplit (GetEnvString env overlay key "") sp).find?
            (fun s => (goParseDuration s.data).isNone) = some e →
          ∃ a b, GetEnvArrayDuration env overlay key sp dds =
            .error (a ++ e ++ b))
      ∧ ((goSplit (GetEnvString env overlay key "") sp).mapM
            (fun s => goParseDuration s.data) = none →
          ∃ e, (goSplit (GetEnvString env overlay key "") sp).find?
            (fun s => (goParseDuration s.data).isNone) = some e))
    ∧ (((∀ e ∈ goSplit (GetEnvString env overlay key "") ed,
            (goSplitN2 e.data kd.data).length = 2) →
        GetEnvMapStringString env overlay key ed kd dm =
          .ok (mapFromEntries kd []
            (goSplit (GetEnvString env overlay key "") ed)))
      ∧ (∀ e, (goSplit (GetEnvString env overlay key "") ed).find?
            (fun x => (goSplitN2 x.data kd.data).length != 2) = some e →
          ∃ a b, GetEnvMapStringString env overlay key ed kd dm =
            .error (a ++ e ++ b))
      ∧ ((∃ e ∈ goSplit (GetEnvString env overlay key "") ed,
            (goSplitN2 e.data kd.data).length ≠ 2) →
          ∃ e, (goSplit (GetEnvString env overlay key "") ed).find?
            (fun x => (goSplitN2 x.data kd.data).length != 2) = some e)) := by
  rw [GetEnvString] at hv
  rw [GetEnvString]
  refine ⟨⟨?_, ?_, ?_⟩, ⟨?_, ?_, ?_⟩, ⟨?_, ?_, ?_⟩⟩
  · intro l hl
    rw [GetEnvArrayInt_eq env overlay key sp dis hv]
    exact parseIntElems_ok key _ l hl
  · intro e he
    refine ⟨"Environment variable " ++ key
      ++ " array contains an invalid integer: ", "", ?_⟩
    rw [GetEnvArrayInt_eq env overlay key sp dis hv,
      parseIntElems_err key _ e he, String.append_empty]
  · intro hnone
    exact mapM_none_exists_find _ _ hnone
  · intro l hl
    rw [GetEnvArrayDuration_eq env overlay key sp dds hv]
    exact parseDurationElems_ok key _ l hl
  · intro e he
    refine ⟨"Environment variable " ++ key
      ++ " array contains an invalid duration: ", "", ?_⟩
    rw [GetEnvArrayDuration_eq env overlay key sp dds hv,
      parseDurationElems_err key _ e he, String.append_empty]
  · intro hnone
    exact mapM_none_exists_find _ _ hnone
  · intro hall
    rw [GetEnvMapStringString_eq env overlay key ed kd dm hv]
    exact parseMapEntries_ok key kd _ [] hall
  · intro e he
    refine ⟨"Environment variable " ++ key
      ++ " contains invalid map entry: ", "", ?_⟩
    rw [GetEnvMapStringString_eq env overlay key ed kd dm hv,
      parseMapEntries_err key kd _ [] e he, String.append_empty]
  · intro hex
    obtain ⟨e, he, hne⟩ := hex
    have hsome : ((goSplit (GetEnvStringS env overlay key "").1 ed).find?
        (fun x => (goSplitN2 x.data kd.data).length != 2)).isSome := by
      rw [List.find?_isSome]
      exact ⟨e, he, by simp [hne]⟩
    obtain ⟨e', he'⟩ := Option.isSome_iff_exists.mp hsome
    exact ⟨e', he'⟩

/-- C5 witness: `"1,2,3"` parses completely to `[1, 2, 3]`; the map entry
`"k1v1"` has no `:` delimiter, so the map accessor panics naming it. -/
theorem claim_C5_witness :
    GetEnvArrayInt [("K", "1,2,3")] [] "K" "," [] = .ok [1, 2, 3]
    ∧ (∃ a b, GetEnvMapStringString [("K", "k1v1")] [] "K" "," ":" [] =
        .error (a ++ "k1v1" ++ b)) := by
  constructor
  · exact (claim_C5 [("K", "1,2,3")] [] "K" "," "," ":" [] [] []
      (by decide)).1.1 [1, 2, 3] (by decide)
  · exact (claim_C5 [("K", "k1v1")] [] "K" "," "," ":" [] [] []
      (by decide)).2.2.2.1 "k1v1" (by decide)

end EnvPkg
